import Mathlib

/-!
# Verification of the nostr relay-client core

Shallow embedding of the parts of the repository referred to by the
specification: the auth send-lock (`sdk/src/relay/auth_lock.rs`), the
write-once global runtime slot (`runtime/src/global.rs`), the runtime
lookup helpers (`sdk/src/runtime.rs`,
`transport/nostr-transport-tungstenite/src/websocket.rs`), the transport
connect pipeline and SOCKS5 framing (same file), event ordering and
flatbuffer round-trip (`database/nostr-database/src/flatbuffers/mod.rs`),
the timeout combinators (`runtime/src/time.rs`, `runtime/src/timer.rs`)
and the UTF-8 byte container (`transport/nostr-transport/src/bytes/utf8.rs`).

The file is organised as definitions first (grouped by source file), then
the theorems about them.
-/

namespace Nostr

/-! ## Definitions: auth send-lock (`sdk/src/relay/auth_lock.rs`) -/

/-- The constant `MAX_READS: u32 = u32::MAX >> 3` from `auth_lock.rs`. -/
def MAX_READS : Nat := (2 ^ 32 - 1) >>> 3

/-- State of the `AuthLock` weighted semaphore, together with instrumentation
counting the permits currently held by callers: `available` is the number of
free permits in the tokio `Semaphore`, `msgPermits` counts outstanding
`acquire_message_permit` guards (1 permit each) and `authGuards` counts
outstanding `acquire_auth_guard` guards (`MAX_READS` permits each). -/
structure AuthLockState where
  available : Nat
  msgPermits : Nat
  authGuards : Nat
deriving DecidableEq

/-- Constructor `AuthLock::new()`: the semaphore starts with `MAX_READS`
permits and no guard is held. -/
def AuthLock.init : AuthLockState := ⟨MAX_READS, 0, 0⟩

/-- One event on the `AuthLock`: a caller completes
`acquire_message_permit` (takes 1 permit) or `acquire_auth_guard` (takes
`MAX_READS` permits via `acquire_many(MAX_READS)`), or drops a held
`SemaphorePermit`, returning its permits. An acquire can only complete when
enough permits are available. -/
inductive AuthLock.Step : AuthLockState → AuthLockState → Prop
  | acquireMessagePermit (s : AuthLockState) (h : 1 ≤ s.available) :
      Step s ⟨s.available - 1, s.msgPermits + 1, s.authGuards⟩
  | releaseMessagePermit (s : AuthLockState) (h : 1 ≤ s.msgPermits) :
      Step s ⟨s.available + 1, s.msgPermits - 1, s.authGuards⟩
  | acquireAuthGuard (s : AuthLockState) (h : MAX_READS ≤ s.available) :
      Step s ⟨s.available - MAX_READS, s.msgPermits, s.authGuards + 1⟩
  | releaseAuthGuard (s : AuthLockState) (h : 1 ≤ s.authGuards) :
      Step s ⟨s.available + MAX_READS, s.msgPermits, s.authGuards - 1⟩

/-- States reachable from the freshly constructed `AuthLock`. -/
inductive AuthLock.Reachable : AuthLockState → Prop
  | init : Reachable AuthLock.init
  | step {s t : AuthLockState} : Reachable s → AuthLock.Step s t → Reachable t

/-! ## Definitions: write-once global runtime slot (`runtime/src/global.rs`) -/

/-- Rust `install_runtime`: `RUNTIME.set(runtime).is_ok()` on the
`OnceLock`. The slot is set and `true` returned only when it was empty;
otherwise the slot is unchanged and `false` is returned. -/
def installRuntime {R : Type} (slot : Option R) (r : R) : Option R × Bool :=
  match slot with
  | none => (some r, true)
  | some x => (some x, false)

/-- Rust `runtime()`: `RUNTIME.get()` on the `OnceLock` — returns the slot
content. -/
def runtimeGet {R : Type} (slot : Option R) : Option R := slot

/-- Run a sequence of `install_runtime` calls against the slot, collecting
the returned booleans and the final slot content. -/
def installAll {R : Type} (slot : Option R) : List R → Option R × List Bool
  | [] => (slot, [])
  | r :: rs =>
    let p := installRuntime slot r
    let q := installAll p.1 rs
    (q.1, p.2 :: q.2)

/-! ## Definitions: runtime lookup (`sdk/src/runtime.rs`, tungstenite
`websocket.rs`) -/

/-- The transport method `TungsteniteWebSocketTransport::get_runtime`: the
explicitly injected runtime (`self.runtime`) if present, otherwise the
process-wide slot (`global::runtime()`), otherwise the backend error
`"no runtime installed"`. -/
def transportGetRuntime {R : Type} (explicit globalSlot : Option R) :
    Except String R :=
  match explicit with
  | some r => .ok r
  | none =>
    match globalSlot with
    | some r => .ok r
    | none => .error "no runtime installed"

/-- The function `get_runtime` from `sdk/src/runtime.rs`: explicitly
provided runtime, else the global slot, else — under the `runtime-tokio`
feature — the ambient Tokio runtime `TokioRuntime::try_current()`.
`tokioCurrent` models the result of `try_current()`; it is `none` when the
feature is disabled or no ambient Tokio runtime exists. -/
def getRuntimeSdk {R : Type} (explicit globalSlot tokioCurrent : Option R) :
    Option R :=
  match explicit with
  | some r => some r
  | none =>
    match globalSlot with
    | some r => some r
    | none => tokioCurrent

/-! ## Definitions: transport connect pipeline (tungstenite `websocket.rs`) -/

/-- The `ProxyTarget` enum from the tungstenite transport. -/
inductive ProxyTarget
  | all
  | onion
deriving DecidableEq

/-- Opaque model of `std::net::SocketAddr` (only compared, never inspected). -/
structure SocketAddr where
  addr : Nat
deriving DecidableEq

/-- The fields of `RelayUrl` the connect pipeline reads: `host_str()`,
`port_or_known_default()`, `scheme().is_secure()` and `is_onion()`. -/
structure RelayUrl where
  host_str : Option String
  port_or_known_default : Option Nat
  is_secure : Bool
  is_onion : Bool
deriving DecidableEq

/-- The transport configuration read by `connect_stream`: the optional
SOCKS5 proxy and its target. -/
structure TungsteniteTransport where
  proxy : Option SocketAddr
  proxy_target : ProxyTarget
deriving DecidableEq

/-- How the TCP stream was obtained: through the SOCKS5 proxy (a
`tcp_connect` to the proxy address followed by the SOCKS5 handshake naming
`host`/`port`), or a direct `runtime.tcp_connect` with the URL's host and
port. -/
inductive ConnKind
  | socks (proxy : SocketAddr) (host : String) (port : Nat)
  | direct (host : String) (port : Nat)
deriving DecidableEq

/-- Result of `connect_stream`: an error before any connection, or a TCP
stream described by `ConnKind`, wrapped in TLS when `tls` is true. -/
inductive ConnectResult
  | error (msg : String)
  | ok (conn : ConnKind) (tls : Bool)
deriving DecidableEq

/-- The method `TungsteniteWebSocketTransport::should_use_proxy`. -/
def TungsteniteTransport.should_use_proxy (t : TungsteniteTransport)
    (url : RelayUrl) : Bool :=
  match t.proxy_target with
  | .all => true
  | .onion => url.is_onion

/-- The method `TungsteniteWebSocketTransport::connect_tcp`: if a proxy is
configured and `should_use_proxy` holds, connect via SOCKS5; otherwise
`runtime.tcp_connect(HostAndPort { host, port })`. -/
def TungsteniteTransport.connect_tcp (t : TungsteniteTransport)
    (url : RelayUrl) (host : String) (port : Nat) : ConnKind :=
  match t.proxy with
  | some proxy =>
    if t.should_use_proxy url then .socks proxy host port
    else .direct host port
  | none => .direct host port

/-- The method `TungsteniteWebSocketTransport::connect_stream`: derive host
and port from the URL (erroring before any connection when either is
missing), obtain the TCP stream via `connect_tcp`, and wrap it in TLS
exactly when the URL scheme is secure (`connect_tls`; TLS handshake
internals are abstracted). -/
def TungsteniteTransport.connect_stream (t : TungsteniteTransport)
    (url : RelayUrl) : ConnectResult :=
  match url.host_str with
  | none => .error "missing relay host"
  | some host =>
    match url.port_or_known_default with
    | none => .error "missing relay port"
    | some port => .ok (t.connect_tcp url host port) url.is_secure

/-! ## Definitions: event ordering
(`database/nostr-database/src/flatbuffers/mod.rs`) -/

/-- Lexicographic comparison of byte strings, mirroring Rust's `Ord` on
`[u8; 32]` / byte slices (element-wise, shorter-is-less on a shared
strict prefix — the arrays compared in the source always have length 32). -/
def compareBytes : List Nat → List Nat → Ordering
  | [], [] => .eq
  | [], _ :: _ => .lt
  | _ :: _, [] => .gt
  | x :: xs, y :: ys =>
    match compare x y with
    | .eq => compareBytes xs ys
    | o => o

/-- The borrowed flatbuffer event record `FlatBufferEvent`. -/
structure FlatBufferEvent where
  id : List Nat
  pubkey : List Nat
  created_at : Nat
  kind : Nat
  tags : List (List String)
  content : String
  sig : List Nat
deriving DecidableEq

/-- Rust `impl Ord for FlatBufferEvent`: descending on `created_at`
(`cmp(..).reverse()`), ties broken by ascending id. -/
def FlatBufferEvent.cmp (e1 e2 : FlatBufferEvent) : Ordering :=
  if e1.created_at ≠ e2.created_at then (compare e1.created_at e2.created_at).swap
  else compareBytes e1.id e2.id

/-- Rust `impl PartialEq for FlatBufferEvent`: `self.id == other.id`. -/
def FlatBufferEvent.beq (e1 e2 : FlatBufferEvent) : Bool :=
  e1.id == e2.id

/-- Rust `impl Hash for FlatBufferEvent`: only `self.id` is fed to the
hasher; `hasher` models the external `Hasher` state transition on a byte
string. -/
def FlatBufferEvent.hashWith (hasher : List Nat → Nat) (e : FlatBufferEvent) : Nat :=
  hasher e.id

/-! ## Definitions: timeout futures (`runtime/src/time.rs`,
`runtime/src/timer.rs`, `sdk/src/runtime.rs`) -/

/-- The `TimeoutError` type (a fieldless struct in both source files). -/
inductive TimeoutError
  | timeout
deriving DecidableEq

/-- A well-behaved future in the poll model: it returns `Pending` on every
poll before step `readyAt` and `Ready value` from step `readyAt` on. -/
structure PollFuture (T : Type) where
  readyAt : Nat
  value : T

/-- Polling a `PollFuture` at step `k` (`Future::poll`): `some` is
`Poll::Ready`, `none` is `Poll::Pending`. -/
def PollFuture.poll {T : Type} (f : PollFuture T) (k : Nat) : Option T :=
  if f.readyAt ≤ k then some f.value else none

/-- One poll of the `Timeout` combinator of `runtime/src/time.rs`
(`impl Future for Timeout`, lines 70–82): the inner future is polled first;
if pending, the sleep is polled; if both pending, the combinator is pending. -/
def timeoutPollTime {T : Type} (f : PollFuture T) (sleep : PollFuture Unit)
    (k : Nat) : Option (Except TimeoutError T) :=
  match f.poll k with
  | some v => some (.ok v)
  | none =>
    match sleep.poll k with
    | some _ => some (.error .timeout)
    | none => none

/-- One poll of the `Timeout` combinator of `runtime/src/timer.rs`
(`impl Future for Timeout`, lines 29–45): identical polling order. -/
def timeoutPollTimer {T : Type} (f : PollFuture T) (sleep : PollFuture Unit)
    (k : Nat) : Option (Except TimeoutError T) :=
  match f.poll k with
  | some v => some (.ok v)
  | none =>
    match sleep.poll k with
    | some _ => some (.error .timeout)
    | none => none

/-- The method `RuntimeWrapper::maybe_timeout` from `sdk/src/runtime.rs`:
with `Some(duration)` it runs `runtime.timeout(duration, future)` (whose
sleep future is `sleepOpt.get`); with `None` it awaits the future directly
and wraps the result in `Ok`. -/
def maybeTimeoutPoll {T : Type} (sleepOpt : Option (PollFuture Unit))
    (f : PollFuture T) (k : Nat) : Option (Except TimeoutError T) :=
  match sleepOpt with
  | some s => timeoutPollTime f s k
  | none => (f.poll k).map .ok

/-! ## Definitions: UTF-8 byte container
(`transport/nostr-transport/src/bytes/utf8.rs`)

A Rust `String` and a Rust `str` are represented by their UTF-8 byte
content (a `List Nat`): `String::into::<Bytes>` moves the byte buffer
unchanged and `str::from_utf8_unchecked` reinterprets the same bytes, so
both conversions are byte-identities in the source. -/

/-- The container `Utf8Bytes(Bytes)`: a byte buffer holding valid UTF-8. -/
structure Utf8Bytes where
  bytes : List Nat
deriving DecidableEq

/-- Rust `Utf8Bytes::as_str`: `str::from_utf8_unchecked(&self.0)` — a view
of the same bytes. -/
def Utf8Bytes.as_str (u : Utf8Bytes) : List Nat := u.bytes

/-- Rust `impl From<String> for Utf8Bytes`: `Self(s.into())` — the
`String`'s byte buffer, moved unchanged. -/
def Utf8Bytes.fromString (s : List Nat) : Utf8Bytes := ⟨s⟩

/-- Rust's `impl Hash for str`: the hasher state (modelled as the byte
string fed so far) absorbs the content bytes followed by the `0xff`
length-delimiter byte. -/
def strHashFeed (s : List Nat) (state : List Nat) : List Nat :=
  state ++ s ++ [0xff]

/-- Rust `impl Hash for Utf8Bytes`: `self.as_str().hash(state)`. -/
def Utf8Bytes.hashFeed (u : Utf8Bytes) (state : List Nat) : List Nat :=
  strHashFeed u.as_str state

/-- Rust `impl<T> PartialEq<T> for Utf8Bytes` at `T = &str`:
`self.as_str() == *other`. -/
def Utf8Bytes.eqStr (u : Utf8Bytes) (s : List Nat) : Bool :=
  u.as_str == s

/-! ## Definitions: SOCKS5 framing (tungstenite `websocket.rs`,
`connect_via_socks`) -/

/-- Result of `host.parse::<IpAddr>()` on the relay host: an IPv4 address
(4 octets), an IPv6 address (16 octets), or a parse failure, in which case
the host is used as a DNS name (`dns` carries `host.as_bytes()`). -/
inductive SocksHost
  | v4 (octets : List Nat)
  | v6 (octets : List Nat)
  | dns (hostBytes : List Nat)
deriving DecidableEq

/-- Errors raised by `connect_via_socks`: the explicit
`TransportError::IO(..)` cases of the source, plus `eof` for a
`read_exact` on an exhausted stream (an I/O error in the source). -/
inductive SocksError
  | ioNoAuth        -- "socks5 proxy does not allow no-auth method"
  | ioHostTooLong   -- "socks5 host name too long"
  | ioConnectFailed -- "socks5 connect failed (rep=..)"
  | ioInvalidAtyp   -- "socks5 proxy replied with invalid address type"
  | eof
deriving DecidableEq

/-- Model of `read_exact` over the inbound byte stream: take exactly `n`
bytes or fail. -/
def readExact (n : Nat) (input : List Nat) : Option (List Nat × List Nat) :=
  if n ≤ input.length then some (input.take n, input.drop n) else none

/-- Big-endian encoding of the port (`u16::to_be_bytes`). -/
def portBE (port : Nat) : List Nat := [port / 256 % 256, port % 256]

/-- The SOCKS5 address encoding built by `connect_via_socks`: `01` + 4
octets for IPv4, `04` + 16 octets for IPv6, `03` + length + bytes for a DNS
name, failing when the name exceeds 255 bytes (`u8::MAX`). -/
def socksAddrEncoding : SocksHost → Except SocksError (List Nat)
  | .v4 octets => .ok (0x01 :: octets)
  | .v6 octets => .ok (0x04 :: octets)
  | .dns hostBytes =>
    if hostBytes.length > 255 then .error .ioHostTooLong
    else .ok (0x03 :: hostBytes.length :: hostBytes)

/-- The function `connect_via_socks`: returns the full sequence of bytes
written to the proxy together with the outcome. `input` is the byte stream
the proxy sends back. Mirrors the source step by step: write the greeting
`05 01 00`; read the 2-byte method reply and require `05 00`; build and
write the connect request; read the 4-byte reply header, requiring version
`05`, reply code `00` and a known address type; consume the bound address
and port. -/
def connectViaSocks (host : SocksHost) (port : Nat) (input : List Nat) :
    List Nat × Except SocksError Unit :=
  let greeting : List Nat := [0x05, 0x01, 0x00]
  match readExact 2 input with
  | none => (greeting, .error .eof)
  | some (resp, rest) =>
    if resp ≠ [0x05, 0x00] then (greeting, .error .ioNoAuth)
    else
      match socksAddrEncoding host with
      | .error e => (greeting, .error e)
      | .ok addr =>
        let request : List Nat := [0x05, 0x01, 0x00] ++ addr ++ portBE port
        let writes := greeting ++ request
        match readExact 4 rest with
        | none => (writes, .error .eof)
        | some (header, rest2) =>
          if header.getD 0 0 ≠ 0x05 ∨ header.getD 1 0 ≠ 0x00 then
            (writes, .error .ioConnectFailed)
          else
            -- `match header[3]` on the integer literals 0x01 / 0x04 / 0x03
            let atyp := header.getD 3 0
            if atyp = 0x01 then
              match readExact 4 rest2 with
              | none => (writes, .error .eof)
              | some (_, rest3) =>
                match readExact 2 rest3 with
                | none => (writes, .error .eof)
                | some _ => (writes, .ok ())
            else if atyp = 0x04 then
              match readExact 16 rest2 with
              | none => (writes, .error .eof)
              | some (_, rest3) =>
                match readExact 2 rest3 with
                | none => (writes, .error .eof)
                | some _ => (writes, .ok ())
            else if atyp = 0x03 then
              match readExact 1 rest2 with
              | none => (writes, .error .eof)
              | some (lenByte, rest3) =>
                match readExact (lenByte.getD 0 0) rest3 with
                | none => (writes, .error .eof)
                | some (_, rest4) =>
                  match readExact 2 rest4 with
                  | none => (writes, .error .eof)
                  | some _ => (writes, .ok ())
            else (writes, .error .ioInvalidAtyp)

/-! ## Definitions: flatbuffer event round-trip
(`database/nostr-database/src/flatbuffers/mod.rs`)

The flatbuffer builder and accessors (`flatbuffers` crate) are modelled as
a symbolic record of the stored fields: `create_string` / `create_vector`
store values verbatim and the generated accessors return them, with each
optional table field an `Option`. The event-library types (`nostr` crate,
part of this repository but not under `src/`) are modelled from the spec. -/

/-- The `MissingField` enum from `flatbuffers/mod.rs`. -/
inductive MissingField
  | id
  | pubkey
  | tags
  | content
  | sig
deriving DecidableEq

/-- The flatbuffers `Error` enum. -/
inductive FbError
  | flatBuffer
  | tag
  | secp256k1
  | fieldNotFound (f : MissingField)
deriving DecidableEq

/-- Modelled from the spec: `nostr::Tag` is an "ordered tag list" entry —
a non-empty list of strings whose first element is the tag kind
(`FlatBufferTag::kind` reads index 0). The `nostr` crate is part of this
repository but not under `src/`. -/
def Tag : Type := { l : List String // l ≠ [] }

instance : DecidableEq Tag :=
  inferInstanceAs (DecidableEq { l : List String // l ≠ [] })

/-- Modelled from the spec: `nostr::Tag::as_slice` returns the underlying
string vector. -/
def Tag.as_slice (t : Tag) : List String := t.val

/-- Modelled from the spec: `nostr::Tag::parse` accepts the string vector
verbatim, failing on an empty vector (a tag must carry its kind at
index 0). -/
def Tag.parse (l : List String) : Except FbError Tag :=
  if h : l = [] then .error .tag else .ok ⟨l, h⟩

/-- Modelled from the spec: `nostr::Event` — immutable record of a 32-byte
id, 32-byte pubkey, timestamp seconds (`u64`), 16-bit kind, ordered tag
list, content string and 64-byte schnorr signature. -/
structure Event where
  id : List Nat
  pubkey : List Nat
  created_at : Nat
  kind : Nat
  tags : List Tag
  content : String
  sig : List Nat
deriving DecidableEq

/-- Validity of an `Event` under the Rust types: fixed-width byte arrays
and integer fields in range (`id`, `pubkey`: `[u8; 32]`; `sig`:
64-byte signature; `created_at`: `u64`; `kind`: `u16`). -/
def Event.WF (e : Event) : Prop :=
  e.id.length = 32 ∧ e.pubkey.length = 32 ∧ e.sig.length = 64 ∧
    e.created_at < 2 ^ 64 ∧ e.kind < 2 ^ 16

/-- The fields stored in the flatbuffer by `FlatBufferEncode for Event`
(`EventArgs`): every table field except the scalars is optional. -/
structure EncodedEvent where
  id : Option (List Nat)
  pubkey : Option (List Nat)
  created_at : Nat
  kind : Nat
  tags : Option (List (Option (List String)))
  content : Option String
  sig : Option (List Nat)
deriving DecidableEq

/-- Rust `impl FlatBufferEncode for Event`: every field is stored as
`Some`; `created_at` is stored via `as_secs()` (the `u64` value), `kind`
via `self.kind.as_u16() as u64` (lossless widening of the 16-bit kind),
each tag as a `StringVector` whose `data` field is `Some(t.as_slice())`. -/
def Event.encode (e : Event) : EncodedEvent :=
  { id := some e.id
    pubkey := some e.pubkey
    created_at := e.created_at
    kind := e.kind
    tags := some (e.tags.map (fun t => some t.as_slice))
    content := some e.content
    sig := some e.sig }

/-- Modelled from the spec: `Signature::from_slice` of the `secp256k1`
crate accepts exactly 64-byte schnorr signatures. -/
def Signature.from_slice (s : List Nat) : Except FbError (List Nat) :=
  if s.length = 64 then .ok s else .error .secp256k1

/-- The decode of the stored tag vector:
`.filter_map(|tag| tag.data().map(Tag::parse)).collect::<Result<Vec<Tag>, _>>()` —
entries without `data` are skipped, the rest are parsed in order, failing
at the first parse error. -/
def collectTags : List (Option (List String)) → Except FbError (List Tag)
  | [] => .ok []
  | none :: rest => collectTags rest
  | some l :: rest =>
    match Tag.parse l with
    | .error e => .error e
    | .ok t =>
      match collectTags rest with
      | .error e => .error e
      | .ok ts => .ok (t :: ts)

/-- Rust `impl FlatBufferDecode for Event`: read the tag vector (erroring
when the field is absent), then rebuild the event, erroring on any other
absent field; `kind` is narrowed back by `ev.kind() as u16` (modelled as
`% 2 ^ 16`) and the signature re-parsed by `Signature::from_slice`. -/
def Event.decode (b : EncodedEvent) : Except FbError Event :=
  match b.tags with
  | none => .error (.fieldNotFound .tags)
  | some rawTags =>
    match collectTags rawTags with
    | .error e => .error e
    | .ok tags =>
      match b.id with
      | none => .error (.fieldNotFound .id)
      | some id =>
        match b.pubkey with
        | none => .error (.fieldNotFound .pubkey)
        | some pubkey =>
          match b.content with
          | none => .error (.fieldNotFound .content)
          | some content =>
            match b.sig with
            | none => .error (.fieldNotFound .sig)
            | some sigBytes =>
              match Signature.from_slice sigBytes with
              | .error e => .error e
              | .ok sg =>
                .ok { id := id
                      pubkey := pubkey
                      created_at := b.created_at
                      kind := b.kind % 2 ^ 16
                      tags := tags
                      content := content
                      sig := sg }

/-! ## Theorems -/

theorem MAX_READS_eq : MAX_READS = 536870911 := by decide

/-- Permit-count conservation: free permits plus held permits always equal
the initial `MAX_READS`. -/
lemma AuthLock.reachable_invariant {s : AuthLockState} (h : AuthLock.Reachable s) :
    s.available + s.msgPermits + s.authGuards * MAX_READS = MAX_READS := by
  induction h with
  | init => simp [AuthLock.init]
  | step _ hstep ih =>
    cases hstep with
    | acquireMessagePermit h => simp only [MAX_READS_eq] at *; omega
    | releaseMessagePermit h => simp only [MAX_READS_eq] at *; omega
    | acquireAuthGuard h => simp only [MAX_READS_eq] at *; omega
    | releaseAuthGuard h => simp only [MAX_READS_eq] at *; omega

/-- C1: The `AuthLock` is a semaphore initialised with `MAX_READS = u32::MAX >> 3`
permits; `acquire_message_permit` takes 1 permit and `acquire_auth_guard`
takes all `MAX_READS`. Consequently, in every reachable state in which an
auth guard is held, no message permit and no second auth guard is held; and
when no auth guard is held any number `m ≤ MAX_READS` of message permits
can be held concurrently (such a state is reachable). -/
theorem authLock_exclusion :
    (∀ s : AuthLockState, AuthLock.Reachable s → 1 ≤ s.authGuards →
      s.authGuards = 1 ∧ s.msgPermits = 0) ∧
    (∀ m : Nat, m ≤ MAX_READS →
      AuthLock.Reachable ⟨MAX_READS - m, m, 0⟩) := by
  constructor
  · intro s hs ha
    have hinv := AuthLock.reachable_invariant hs
    rw [MAX_READS_eq] at hinv
    omega
  · intro m hm
    induction m with
    | zero => simpa [AuthLock.init] using AuthLock.Reachable.init
    | succ n ih =>
      have hn : n ≤ MAX_READS := Nat.le_of_succ_le hm
      have hr := ih hn
      have hstep := AuthLock.Step.acquireMessagePermit ⟨MAX_READS - n, n, 0⟩ (by
        simp only
        omega)
      have : AuthLock.Reachable ⟨MAX_READS - n - 1, n + 1, 0⟩ :=
        AuthLock.Reachable.step hr hstep
      have heq : MAX_READS - n - 1 = MAX_READS - (n + 1) := by omega
      rwa [heq] at this

/-- Witness for `authLock_exclusion` at concrete states: the state reached
by a single `acquire_auth_guard` from the initial state has exactly one auth
guard and no message permit, and two concurrent message permits are
reachable. -/
theorem authLock_exclusion_witness :
    ((⟨0, 0, 1⟩ : AuthLockState).authGuards = 1 ∧
      (⟨0, 0, 1⟩ : AuthLockState).msgPermits = 0) ∧
    AuthLock.Reachable ⟨MAX_READS - 2, 2, 0⟩ := by
  have hreach : AuthLock.Reachable (⟨0, 0, 1⟩ : AuthLockState) := by
    have hstep := AuthLock.Step.acquireAuthGuard AuthLock.init (by
      simp [AuthLock.init])
    have := AuthLock.Reachable.step AuthLock.Reachable.init hstep
    simpa [AuthLock.init] using this
  exact ⟨authLock_exclusion.1 ⟨0, 0, 1⟩ hreach (by decide),
    authLock_exclusion.2 2 (by rw [MAX_READS_eq]; omega)⟩

lemma installAll_some {R : Type} (x : R) (rs : List R) :
    installAll (some x) rs = (some x, List.replicate rs.length false) := by
  induction rs with
  | nil => rfl
  | cons r rs ih => simp [installAll, installRuntime, ih, List.replicate]

/-- C4: the process-wide runtime slot is write-once: starting from the empty
slot, the first `install_runtime` returns `true`, every subsequent call
returns `false` and leaves the slot unchanged, and `runtime()` returns
`None` before any install and the first-installed handle afterwards. -/
theorem installRuntime_write_once {R : Type} (r : R) (rs : List R) :
    installAll (none : Option R) (r :: rs) =
      (some r, true :: List.replicate rs.length false) ∧
    runtimeGet (none : Option R) = none ∧
    runtimeGet (installAll (none : Option R) (r :: rs)).1 = some r := by
  refine ⟨?_, rfl, ?_⟩
  · simp [installAll, installRuntime, installAll_some]
  · simp [installAll, installRuntime, installAll_some, runtimeGet]

/-- C5 counterexample: with no explicit runtime and no installed global
runtime but an ambient Tokio runtime available (feature `runtime-tokio`),
`get_runtime` returns that ambient runtime instead of `None`, so a third
source of a runtime is consulted, contrary to the claim. -/
theorem getRuntime_counterexample :
    getRuntimeSdk (none : Option Unit) none (some ()) = some () ∧
    getRuntimeSdk (none : Option Unit) none (some ()) ≠ none := by
  constructor
  · rfl
  · intro h
    simp [getRuntimeSdk] at h

/-- C5 (amended): the lookup order is explicit injection, then the
process-wide default; the transport then fails with `"no runtime installed"`,
while the SDK `get_runtime` additionally falls back to the ambient Tokio
runtime (feature `runtime-tokio`) and returns `None` only when that too is
absent. -/
theorem getRuntime_lookup_order {R : Type}
    (explicit globalSlot tokioCurrent : Option R) :
    (∀ r, explicit = some r →
      transportGetRuntime explicit globalSlot = .ok r ∧
      getRuntimeSdk explicit globalSlot tokioCurrent = some r) ∧
    (explicit = none → ∀ r, globalSlot = some r →
      transportGetRuntime explicit globalSlot = .ok r ∧
      getRuntimeSdk explicit globalSlot tokioCurrent = some r) ∧
    (explicit = none → globalSlot = none →
      transportGetRuntime explicit globalSlot = .error "no runtime installed" ∧
      getRuntimeSdk explicit globalSlot tokioCurrent = tokioCurrent) := by
  refine ⟨?_, ?_, ?_⟩
  · rintro r rfl
    exact ⟨rfl, rfl⟩
  · rintro rfl r rfl
    exact ⟨rfl, rfl⟩
  · rintro rfl rfl
    exact ⟨rfl, rfl⟩

/-- Witness for `getRuntime_lookup_order` at concrete inputs. -/
theorem getRuntime_lookup_order_witness :
    (transportGetRuntime (some 7) (some 8) = .ok 7 ∧
      getRuntimeSdk (some 7) (some 8) (none : Option Nat) = some 7) ∧
    (transportGetRuntime (none : Option Nat) (some 8) = .ok 8 ∧
      getRuntimeSdk (none : Option Nat) (some 8) none = some 8) ∧
    (transportGetRuntime (none : Option Nat) none = .error "no runtime installed" ∧
      getRuntimeSdk (none : Option Nat) none (some 9) = some 9) :=
  ⟨(getRuntime_lookup_order (some 7) (some 8) (none : Option Nat)).1 7 rfl,
   (getRuntime_lookup_order (none : Option Nat) (some 8) none).2.1 rfl 8 rfl,
   (getRuntime_lookup_order (none : Option Nat) none (some 9)).2.2 rfl rfl⟩

/-- C2: `connect_stream` uses the SOCKS5 proxy iff a proxy is configured and
the proxy target matches (All, or Onion with an onion URL); otherwise it
calls `runtime.tcp_connect` with the URL's host and port; it errors before
any connection when host or port cannot be derived; and the stream is TLS
wrapped iff the URL scheme is secure. -/
theorem connect_stream_spec (t : TungsteniteTransport) (url : RelayUrl) :
    (url.host_str = none →
      t.connect_stream url = .error "missing relay host") ∧
    (∀ host, url.host_str = some host → url.port_or_known_default = none →
      t.connect_stream url = .error "missing relay port") ∧
    (∀ host port, url.host_str = some host →
      url.port_or_known_default = some port →
      ((∃ proxy, t.connect_stream url = .ok (.socks proxy host port) url.is_secure ∧
          t.proxy = some proxy) ↔
        (t.proxy ≠ none ∧ t.should_use_proxy url = true)) ∧
      ((t.proxy = none ∨ t.should_use_proxy url = false) →
        t.connect_stream url = .ok (.direct host port) url.is_secure)) := by
  refine ⟨?_, ?_, ?_⟩
  · intro h
    simp [TungsteniteTransport.connect_stream, h]
  · rintro host hh hp
    simp [TungsteniteTransport.connect_stream, hh, hp]
  · rintro host port hh hp
    constructor
    · constructor
      · rintro ⟨proxy, hok, hpr⟩
        refine ⟨by simp [hpr], ?_⟩
        by_contra hnot
        simp only [Bool.not_eq_true] at hnot
        simp [TungsteniteTransport.connect_stream, hh, hp,
          TungsteniteTransport.connect_tcp, hpr, hnot] at hok
      · rintro ⟨hpr, huse⟩
        match hproxy : t.proxy with
        | none => exact absurd hproxy hpr
        | some proxy =>
          refine ⟨proxy, ?_, rfl⟩
          simp [TungsteniteTransport.connect_stream, hh, hp,
            TungsteniteTransport.connect_tcp, hproxy, huse]
    · rintro (hpr | huse)
      · simp [TungsteniteTransport.connect_stream, hh, hp,
          TungsteniteTransport.connect_tcp, hpr]
      · cases hproxy : t.proxy with
        | none =>
          simp [TungsteniteTransport.connect_stream, hh, hp,
            TungsteniteTransport.connect_tcp, hproxy]
        | some proxy =>
          simp [TungsteniteTransport.connect_stream, hh, hp,
            TungsteniteTransport.connect_tcp, hproxy, huse]

/-- Witness for `connect_stream_spec` at concrete inputs: an onion URL with
an Onion-targeted proxy goes through SOCKS5, and a missing host errors. -/
theorem connect_stream_spec_witness :
    ((∃ proxy,
        TungsteniteTransport.connect_stream
          ⟨some ⟨9050⟩, .onion⟩
          ⟨some "abc.onion", some 80, false, true⟩ =
          .ok (.socks proxy "abc.onion" 80) false ∧
        (⟨some ⟨9050⟩, .onion⟩ : TungsteniteTransport).proxy = some proxy) ↔
      ((⟨some ⟨9050⟩, .onion⟩ : TungsteniteTransport).proxy ≠ none ∧
        TungsteniteTransport.should_use_proxy ⟨some ⟨9050⟩, .onion⟩
          ⟨some "abc.onion", some 80, false, true⟩ = true)) ∧
    TungsteniteTransport.connect_stream ⟨none, .all⟩ ⟨none, some 80, true, false⟩ =
      .error "missing relay host" :=
  ⟨((connect_stream_spec ⟨some ⟨9050⟩, .onion⟩
      ⟨some "abc.onion", some 80, false, true⟩).2.2 "abc.onion" 80 rfl rfl).1,
   (connect_stream_spec ⟨none, .all⟩ ⟨none, some 80, true, false⟩).1 rfl⟩

lemma compareBytes_eq_iff : ∀ xs ys : List Nat, compareBytes xs ys = .eq ↔ xs = ys := by
  intro xs
  induction xs with
  | nil => intro ys; cases ys <;> simp [compareBytes]
  | cons x xs ih =>
    intro ys
    cases ys with
    | nil => simp [compareBytes]
    | cons y ys =>
      simp only [compareBytes]
      cases h : compare x y with
      | eq =>
        have hxy : x = y := Nat.compare_eq_eq.mp h
        simp [hxy, ih]
      | lt =>
        have hxy : x < y := Nat.compare_eq_lt.mp h
        simp only [List.cons.injEq]
        constructor
        · intro hcontra; exact absurd hcontra (by simp)
        · rintro ⟨rfl, _⟩; omega
      | gt =>
        have hxy : y < x := Nat.compare_eq_gt.mp h
        simp only [List.cons.injEq]
        constructor
        · intro hcontra; exact absurd hcontra (by simp)
        · rintro ⟨rfl, _⟩; omega

lemma compareBytes_swap : ∀ xs ys : List Nat,
    (compareBytes xs ys).swap = compareBytes ys xs := by
  intro xs
  induction xs with
  | nil => intro ys; cases ys <;> simp [compareBytes, Ordering.swap]
  | cons x xs ih =>
    intro ys
    cases ys with
    | nil => simp [compareBytes, Ordering.swap]
    | cons y ys =>
      simp only [compareBytes]
      rw [← Nat.compare_swap x y]
      cases h : compare x y with
      | lt => rfl
      | gt => rfl
      | eq => exact ih ys

lemma compareBytes_lt_trans : ∀ xs ys zs : List Nat,
    compareBytes xs ys = .lt → compareBytes ys zs = .lt →
    compareBytes xs zs = .lt := by
  intro xs
  induction xs with
  | nil =>
    intro ys zs h1 h2
    cases ys with
    | nil => simp [compareBytes] at h1
    | cons y ys =>
      cases zs with
      | nil => simp [compareBytes] at h2
      | cons z zs => simp [compareBytes]
  | cons x xs ih =>
    intro ys zs h1 h2
    cases ys with
    | nil => simp [compareBytes] at h1
    | cons y ys =>
      cases zs with
      | nil => simp [compareBytes] at h2
      | cons z zs =>
        simp only [compareBytes] at h1 h2 ⊢
        cases hxy : compare x y with
        | gt => rw [hxy] at h1; exact absurd h1 (by simp)
        | eq =>
          rw [hxy] at h1
          have hxyeq : x = y := Nat.compare_eq_eq.mp hxy
          cases hyz : compare y z with
          | gt => rw [hyz] at h2; exact absurd h2 (by simp)
          | eq =>
            rw [hyz] at h2
            have hyzeq : y = z := Nat.compare_eq_eq.mp hyz
            have hxz : compare x z = .eq := Nat.compare_eq_eq.mpr (hxyeq.trans hyzeq)
            rw [hxz]
            exact ih ys zs h1 h2
          | lt =>
            have hyzlt : y < z := Nat.compare_eq_lt.mp hyz
            have hxz : compare x z = .lt := Nat.compare_eq_lt.mpr (hxyeq ▸ hyzlt)
            rw [hxz]
        | lt =>
          have hxylt : x < y := Nat.compare_eq_lt.mp hxy
          cases hyz : compare y z with
          | gt => rw [hyz] at h2; exact absurd h2 (by simp)
          | eq =>
            have hyzeq : y = z := Nat.compare_eq_eq.mp hyz
            have hxz : compare x z = .lt := Nat.compare_eq_lt.mpr (hyzeq ▸ hxylt)
            rw [hxz]
          | lt =>
            have hyzlt : y < z := Nat.compare_eq_lt.mp hyz
            have hxz : compare x z = .lt := Nat.compare_eq_lt.mpr (Nat.lt_trans hxylt hyzlt)
            rw [hxz]

lemma FlatBufferEvent.cmp_eq_lt_iff (e1 e2 : FlatBufferEvent) :
    e1.cmp e2 = .lt ↔
      e2.created_at < e1.created_at ∨
        (e1.created_at = e2.created_at ∧ compareBytes e1.id e2.id = .lt) := by
  unfold FlatBufferEvent.cmp
  by_cases h : e1.created_at = e2.created_at
  · simp [h]
  · rw [if_pos h, Nat.compare_swap]
    rw [Nat.compare_eq_lt]
    constructor
    · intro hlt; exact Or.inl hlt
    · rintro (hlt | ⟨heq, _⟩)
      · exact hlt
      · exact absurd heq h

/-- C6: event comparison sorts by `created_at` descending with ties broken
by ascending id, and is a total order on the `(created_at, id)` key:
it is antisymmetric under `Ordering.swap`, transitive, and `.eq` exactly
on equal keys; equality (`PartialEq`) and hashing are keyed solely on the
id. -/
theorem event_ordering :
    (∀ e1 e2 : FlatBufferEvent, e2.created_at < e1.created_at →
      e1.cmp e2 = .lt) ∧
    (∀ e1 e2 : FlatBufferEvent, e1.created_at = e2.created_at →
      e1.cmp e2 = compareBytes e1.id e2.id) ∧
    (∀ e1 e2 : FlatBufferEvent, (e1.cmp e2).swap = e2.cmp e1) ∧
    (∀ e1 e2 e3 : FlatBufferEvent, e1.cmp e2 = .lt → e2.cmp e3 = .lt →
      e1.cmp e3 = .lt) ∧
    (∀ e1 e2 : FlatBufferEvent, e1.cmp e2 = .eq ↔
      (e1.created_at = e2.created_at ∧ e1.id = e2.id)) ∧
    (∀ e1 e2 : FlatBufferEvent, e1.beq e2 = true ↔ e1.id = e2.id) ∧
    (∀ (hasher : List Nat → Nat) (e1 e2 : FlatBufferEvent), e1.id = e2.id →
      e1.hashWith hasher = e2.hashWith hasher) := by
  refine ⟨?_, ?_, ?_, ?_, ?_, ?_, ?_⟩
  · intro e1 e2 h
    exact (FlatBufferEvent.cmp_eq_lt_iff e1 e2).mpr (Or.inl h)
  · intro e1 e2 h
    simp [FlatBufferEvent.cmp, h]
  · intro e1 e2
    unfold FlatBufferEvent.cmp
    by_cases h : e1.created_at = e2.created_at
    · simp [h, compareBytes_swap]
    · have h' : e2.created_at ≠ e1.created_at := fun hh => h hh.symm
      simp [h, h', Ordering.swap_swap, Nat.compare_swap]
  · intro e1 e2 e3 h12 h23
    rw [FlatBufferEvent.cmp_eq_lt_iff] at h12 h23 ⊢
    rcases h12 with h12 | ⟨h12eq, h12id⟩
    · rcases h23 with h23 | ⟨h23eq, _⟩
      · exact Or.inl (Nat.lt_trans h23 h12)
      · exact Or.inl (h23eq ▸ h12)
    · rcases h23 with h23 | ⟨h23eq, h23id⟩
      · exact Or.inl (by omega)
      · exact Or.inr ⟨h12eq.trans h23eq, compareBytes_lt_trans _ _ _ h12id h23id⟩
  · intro e1 e2
    unfold FlatBufferEvent.cmp
    by_cases h : e1.created_at = e2.created_at
    · simp [h, compareBytes_eq_iff]
    · rw [if_pos h]
      constructor
      · intro hsw
        have : compare e1.created_at e2.created_at = .eq := by
          cases hc : compare e1.created_at e2.created_at <;>
            simp [hc, Ordering.swap] at hsw ⊢
        exact absurd (Nat.compare_eq_eq.mp this) h
      · rintro ⟨heq, _⟩; exact absurd heq h
  · intro e1 e2
    simp [FlatBufferEvent.beq]
  · intro hasher e1 e2 h
    simp [FlatBufferEvent.hashWith, h]

/-- Witness for `event_ordering` at concrete events: a newer event sorts
first, and equal timestamps fall back to id order. -/
theorem event_ordering_witness :
    FlatBufferEvent.cmp ⟨[1], [], 10, 1, [], "", []⟩ ⟨[2], [], 5, 1, [], "", []⟩ = .lt ∧
    FlatBufferEvent.cmp ⟨[1], [], 7, 1, [], "", []⟩ ⟨[2], [], 7, 1, [], "", []⟩ =
      compareBytes [1] [2] ∧
    (FlatBufferEvent.beq ⟨[1], [], 10, 1, [], "", []⟩ ⟨[1], [], 99, 2, [], "x", []⟩ = true ↔
      ([1] : List Nat) = [1]) :=
  ⟨event_ordering.1 ⟨[1], [], 10, 1, [], "", []⟩ ⟨[2], [], 5, 1, [], "", []⟩ (by decide),
   event_ordering.2.1 ⟨[1], [], 7, 1, [], "", []⟩ ⟨[2], [], 7, 1, [], "", []⟩ rfl,
   event_ordering.2.2.2.2.2.1 ⟨[1], [], 10, 1, [], "", []⟩ ⟨[1], [], 99, 2, [], "x", []⟩⟩

/-- C7: `timeout(d, f)` races `f` against `sleep(d)`: the combinator is
pending before `min f.readyAt sleep.readyAt`; if `f` completes strictly
first it yields `Ok f.value` at `f.readyAt`; if the sleep completes strictly
first it yields `Err(TimeoutError)` at `sleep.readyAt` and `f` has not
produced a value by then (it is dropped unresolved); `maybe_timeout` with
`None` skips the race and always yields `Ok` of the future's value. -/
theorem timeout_race {T : Type} (f : PollFuture T) (s : PollFuture Unit) :
    (∀ k, k < min f.readyAt s.readyAt → timeoutPollTime f s k = none) ∧
    (f.readyAt < s.readyAt →
      timeoutPollTime f s f.readyAt = some (.ok f.value)) ∧
    (s.readyAt < f.readyAt →
      timeoutPollTime f s s.readyAt = some (.error .timeout) ∧
      f.poll s.readyAt = none) ∧
    (∀ k, maybeTimeoutPoll (some s) f k = timeoutPollTime f s k) ∧
    (∀ k, maybeTimeoutPoll none f k = (f.poll k).map Except.ok) ∧
    maybeTimeoutPoll none f f.readyAt = some (.ok f.value) := by
  refine ⟨?_, ?_, ?_, fun _ => rfl, fun _ => rfl, ?_⟩
  · intro k hk
    have hf : ¬ f.readyAt ≤ k := by omega
    have hs : ¬ s.readyAt ≤ k := by omega
    simp [timeoutPollTime, PollFuture.poll, hf, hs]
  · intro h
    simp [timeoutPollTime, PollFuture.poll]
  · intro h
    have hf : ¬ f.readyAt ≤ s.readyAt := by omega
    constructor
    · simp [timeoutPollTime, PollFuture.poll, hf]
    · simp [PollFuture.poll, hf]
  · simp [maybeTimeoutPoll, PollFuture.poll]

/-- Witness for `timeout_race` at concrete futures: a future ready at step 1
against a sleep ready at step 3, and vice versa. -/
theorem timeout_race_witness :
    timeoutPollTime (⟨1, 42⟩ : PollFuture Nat) ⟨3, ()⟩ 1 = some (.ok 42) ∧
    (timeoutPollTime (⟨3, 42⟩ : PollFuture Nat) ⟨1, ()⟩ 1 = some (.error .timeout) ∧
      PollFuture.poll (⟨3, 42⟩ : PollFuture Nat) 1 = none) ∧
    timeoutPollTime (⟨1, 42⟩ : PollFuture Nat) ⟨3, ()⟩ 0 = none :=
  ⟨(timeout_race (⟨1, 42⟩ : PollFuture Nat) ⟨3, ()⟩).2.1 (by decide),
   (timeout_race (⟨3, 42⟩ : PollFuture Nat) ⟨1, ()⟩).2.2.1 (by decide),
   (timeout_race (⟨1, 42⟩ : PollFuture Nat) ⟨3, ()⟩).1 0 (by decide)⟩

/-- C10: the race is biased toward the wrapped future. Both `Timeout`
implementations poll the inner future before the sleep, so whenever the
future is ready at the polled step — in particular when both are ready in
the same poll, including a zero-duration timeout with an immediately ready
future — the result is `Ok` with the future's value, never
`Err(TimeoutError)`. -/
theorem timeout_bias {T : Type} (f : PollFuture T) (s : PollFuture Unit)
    (k : Nat) (h : f.readyAt ≤ k) :
    timeoutPollTime f s k = some (.ok f.value) ∧
    timeoutPollTimer f s k = some (.ok f.value) ∧
    timeoutPollTime f s k ≠ some (.error .timeout) ∧
    timeoutPollTimer f s k ≠ some (.error .timeout) := by
  have hf : f.poll k = some f.value := by simp [PollFuture.poll, h]
  refine ⟨?_, ?_, ?_, ?_⟩ <;> simp [timeoutPollTime, timeoutPollTimer, hf]

/-- Witness for `timeout_bias`: a zero-duration sleep and an immediately
ready future, both ready at poll 0. -/
theorem timeout_bias_witness :
    timeoutPollTime (⟨0, 7⟩ : PollFuture Nat) ⟨0, ()⟩ 0 = some (.ok 7) ∧
    timeoutPollTimer (⟨0, 7⟩ : PollFuture Nat) ⟨0, ()⟩ 0 = some (.ok 7) ∧
    timeoutPollTime (⟨0, 7⟩ : PollFuture Nat) ⟨0, ()⟩ 0 ≠ some (.error .timeout) ∧
    timeoutPollTimer (⟨0, 7⟩ : PollFuture Nat) ⟨0, ()⟩ 0 ≠ some (.error .timeout) :=
  timeout_bias (⟨0, 7⟩ : PollFuture Nat) ⟨0, ()⟩ 0 (by decide)

/-- C8: `Utf8Bytes` and `String` round-trip losslessly
(`Utf8Bytes::from(s).as_str() == s` for every `String` `s`), and hashing a
`Utf8Bytes` drives the hasher exactly as hashing its underlying `&str`
does, so keyed lookups by `&str` match stored `Utf8Bytes` keys. -/
theorem utf8Bytes_roundtrip_hash :
    (∀ s : List Nat, (Utf8Bytes.fromString s).as_str = s) ∧
    (∀ (u : Utf8Bytes) (state : List Nat),
      u.hashFeed state = strHashFeed u.as_str state) ∧
    (∀ (s state : List Nat),
      (Utf8Bytes.fromString s).hashFeed state = strHashFeed s state) ∧
    (∀ s : List Nat, (Utf8Bytes.fromString s).eqStr s = true) := by
  refine ⟨fun s => rfl, fun u state => rfl, fun s state => rfl, ?_⟩
  intro s
  simp [Utf8Bytes.eqStr, Utf8Bytes.fromString, Utf8Bytes.as_str]

lemma connectViaSocks_greeting (host : SocksHost) (port : Nat) (input : List Nat) :
    ((connectViaSocks host port input).1).take 3 = [0x05, 0x01, 0x00] := by
  unfold connectViaSocks
  repeat' (first | rfl | split | dsimp only)

/-- C3: `connect_via_socks` first writes the greeting `05 01 00` and fails
with `ioNoAuth` unless the 2-byte method reply is exactly `05 00`; it then
writes the connect request `05 01 00` followed by the address encoding
(`01`+4 octets for IPv4, `04`+16 octets for IPv6, `03`+len+bytes for DNS,
erroring when the DNS name exceeds 255 bytes) followed by the port in
big-endian; and it fails with an IO error on any reply header whose first
byte is not `05`, whose second byte is not `00`, or whose address type is
not `01`, `03` or `04`. -/
theorem socks5_framing (host : SocksHost) (port : Nat) (input : List Nat) :
    ((connectViaSocks host port input).1).take 3 = [0x05, 0x01, 0x00] ∧
    (∀ resp rest, readExact 2 input = some (resp, rest) → resp ≠ [0x05, 0x00] →
      connectViaSocks host port input = ([0x05, 0x01, 0x00], .error .ioNoAuth)) ∧
    (∀ octets, socksAddrEncoding (.v4 octets) = .ok (0x01 :: octets)) ∧
    (∀ octets, socksAddrEncoding (.v6 octets) = .ok (0x04 :: octets)) ∧
    (∀ hostBytes, hostBytes.length ≤ 255 →
      socksAddrEncoding (.dns hostBytes) =
        .ok (0x03 :: hostBytes.length :: hostBytes)) ∧
    (∀ rest hostBytes, readExact 2 input = some ([0x05, 0x00], rest) →
      host = .dns hostBytes → hostBytes.length > 255 →
      connectViaSocks host port input =
        ([0x05, 0x01, 0x00], .error .ioHostTooLong)) ∧
    (∀ rest addr, readExact 2 input = some ([0x05, 0x00], rest) →
      socksAddrEncoding host = .ok addr →
      (connectViaSocks host port input).1 =
        [0x05, 0x01, 0x00] ++ ([0x05, 0x01, 0x00] ++ addr ++ portBE port)) ∧
    (∀ rest addr header rest2, readExact 2 input = some ([0x05, 0x00], rest) →
      socksAddrEncoding host = .ok addr →
      readExact 4 rest = some (header, rest2) →
      ((header.getD 0 0 ≠ 0x05 ∨ header.getD 1 0 ≠ 0x00) →
        (connectViaSocks host port input).2 = .error .ioConnectFailed) ∧
      (header.getD 0 0 = 0x05 → header.getD 1 0 = 0x00 →
        header.getD 3 0 ≠ 0x01 → header.getD 3 0 ≠ 0x03 →
        header.getD 3 0 ≠ 0x04 →
        (connectViaSocks host port input).2 = .error .ioInvalidAtyp)) := by
  refine ⟨connectViaSocks_greeting host port input, ?_, fun _ => rfl, fun _ => rfl,
    ?_, ?_, ?_, ?_⟩
  · intro resp rest hread hne
    unfold connectViaSocks
    rw [hread]
    dsimp only
    rw [if_pos hne]
  · intro hostBytes hlen
    simp [socksAddrEncoding, Nat.not_lt.mpr hlen]
  · intro rest hostBytes hread hhost hlen
    subst hhost
    unfold connectViaSocks
    rw [hread]
    dsimp only
    rw [if_neg (by simp)]
    simp [socksAddrEncoding, hlen]
  · intro rest addr hread haddr
    unfold connectViaSocks
    rw [hread]
    dsimp only
    rw [if_neg (by simp), haddr]
    dsimp only
    repeat' (first | rfl | split)
  · intro rest addr header rest2 hread haddr hheader
    constructor
    · intro hbad
      unfold connectViaSocks
      rw [hread]
      dsimp only
      rw [if_neg (by simp), haddr]
      dsimp only
      rw [hheader]
      dsimp only
      rw [if_pos hbad]
    · intro h0 h1 hn1 hn3 hn4
      have hnotbad : ¬(header.getD 0 0 ≠ 0x05 ∨ header.getD 1 0 ≠ 0x00) :=
        not_or.mpr ⟨not_not_intro h0, not_not_intro h1⟩
      unfold connectViaSocks
      rw [hread]
      dsimp only
      rw [if_neg (by simp), haddr]
      dsimp only
      rw [hheader]
      dsimp only
      rw [if_neg hnotbad, if_neg hn1, if_neg hn4, if_neg hn3]

/-- Witness for `socks5_framing` at concrete inputs: a 4-byte DNS host,
port 443, a proxy accepting no-auth and replying with an IPv4 bound
address; plus a proxy rejecting the method and a reply with a bad address
type. -/
theorem socks5_framing_witness :
    (connectViaSocks (.dns [97, 98, 99, 100]) 443
        [0x05, 0x00, 0x05, 0x00, 0x00, 0x01, 9, 9, 9, 9, 0, 80]).1 =
      [0x05, 0x01, 0x00] ++
        ([0x05, 0x01, 0x00] ++ (0x03 :: 4 :: [97, 98, 99, 100]) ++ portBE 443) ∧
    connectViaSocks (.v4 [1, 2, 3, 4]) 80 [0x05, 0xff] =
      ([0x05, 0x01, 0x00], .error .ioNoAuth) ∧
    (connectViaSocks (.v4 [1, 2, 3, 4]) 80
        [0x05, 0x00, 0x05, 0x00, 0x00, 0x09]).2 = .error .ioInvalidAtyp := by
  refine ⟨?_, ?_, ?_⟩
  · have h := (socks5_framing (.dns [97, 98, 99, 100]) 443
      [0x05, 0x00, 0x05, 0x00, 0x00, 0x01, 9, 9, 9, 9, 0, 80]).2.2.2.2.2.2.1
      [0x05, 0x00, 0x00, 0x01, 9, 9, 9, 9, 0, 80] (0x03 :: 4 :: [97, 98, 99, 100])
      (by decide) rfl
    simpa using h
  · exact (socks5_framing (.v4 [1, 2, 3, 4]) 80 [0x05, 0xff]).2.1
      [0x05, 0xff] [] (by decide) (by decide)
  · exact ((socks5_framing (.v4 [1, 2, 3, 4]) 80
      [0x05, 0x00, 0x05, 0x00, 0x00, 0x09]).2.2.2.2.2.2.2
      [0x05, 0x00, 0x00, 0x09] [0x01, 1, 2, 3, 4] [0x05, 0x00, 0x00, 0x09] []
      (by decide) rfl (by decide)).2 (by decide) (by decide)
      (by decide) (by decide) (by decide)

lemma collectTags_map (ts : List Tag) :
    collectTags (ts.map (fun t => some t.as_slice)) = .ok ts := by
  induction ts with
  | nil => rfl
  | cons t ts ih =>
    obtain ⟨l, hl⟩ := t
    simp only [Tag.as_slice] at ih ⊢
    simp [collectTags, Tag.parse, hl, ih]

/-- C9: flatbuffer serialisation of events round-trips — for every valid
`Event`, decoding the encoding returns `Ok` of an event equal to the
original in every field; in particular the 16-bit kind survives the
widening to `u64` and the narrowing back, and every tag is preserved in
order. -/
theorem event_flatbuffer_roundtrip (e : Event) (h : e.WF) :
    Event.decode (Event.encode e) = .ok e := by
  obtain ⟨hid, hpk, hsig, hca, hkind⟩ := h
  cases e with
  | mk id pubkey created_at kind tags content sg =>
    simp only at hsig hkind
    have hkind65 : kind < 65536 := by omega
    simp [Event.encode, Event.decode, collectTags_map, Signature.from_slice,
      hsig, Nat.mod_eq_of_lt hkind65]

/-- Witness for `event_flatbuffer_roundtrip` at a concrete event (two tags,
kind 7, realistic timestamp). -/
theorem event_flatbuffer_roundtrip_witness :
    Event.decode (Event.encode
      ⟨List.range 32, List.replicate 32 1, 1716508454, 7,
        [⟨["e", "abc"], List.cons_ne_nil _ _⟩, ⟨["p"], List.cons_ne_nil _ _⟩],
        "+", List.replicate 64 2⟩) =
      .ok ⟨List.range 32, List.replicate 32 1, 1716508454, 7,
        [⟨["e", "abc"], List.cons_ne_nil _ _⟩, ⟨["p"], List.cons_ne_nil _ _⟩],
        "+", List.replicate 64 2⟩ :=
  event_flatbuffer_roundtrip _ ⟨by decide, by decide, by decide, by decide, by decide⟩

end Nostr
